import Mathlib

/-!
# Verification of the TPlistProtocol plist codec

A shallow embedding of `lib/cpp/src/thrift/protocol/TPlistProtocol.{h,cpp}`:
the streaming plist writer/reader pair, its context stack, XML-entity
escaping, Base64 coding for binary values, and the `LookaheadReader`.

Byte streams are modelled as `List Char` (every byte handled by the codec is
an ASCII character; bytes of binary payloads are modelled as `Nat` values
below 256).  The `uint32_t` byte-counting return values of the C++ methods
are not modelled: all claims are about emitted bytes, decoded values, stack
depths and errors.  Transport end-of-stream exceptions are modelled by the
`eofErr` error; grammar violations by `invalidData`, matching
`TProtocolException::INVALID_DATA`, and `badVersion` matches
`TProtocolException::BAD_VERSION`.
-/

/-- Error kinds raised by the codec (`TProtocolException` kinds plus
transport end-of-stream). -/
inductive PlistErr where
  | invalidData
  | badVersion
  | eofErr
deriving DecidableEq, Repr

/-! ## Static data (`TPlistProtocol.cpp` top of file) -/

def kPlistObjectStart : List Char := "<dict>".toList
def kPlistObjectEnd : List Char := "</dict>".toList
def kPlistArrayStart : List Char := "<array>".toList
def kPlistArrayEnd : List Char := "</array>".toList
def kPlistKeyStart : List Char := "<key>".toList
def kPlistKeyEnd : List Char := "</key>".toList
def kPlistStringStart : List Char := "<string>".toList
def kPlistStringEnd : List Char := "</string>".toList
def kPlistBinaryStart : List Char := "<data>".toList
def kPlistBinaryEnd : List Char := "</data>".toList
def kPlistIntegerStart : List Char := "<integer>".toList
def kPlistIntegerEnd : List Char := "</integer>".toList
def kPlistRealStart : List Char := "<real>".toList
def kPlistRealEnd : List Char := "</real>".toList

def kPlistPlistStart : List Char := "<plist version=\"1.0\">".toList

def kPlistPlistEnd : List Char := "</plist>".toList

def kPlistHeader : List Char :=
  ("<?xml version=\"1.0\" encoding=\"UTF-8\"?>\n" ++
   "<!DOCTYPE plist PUBLIC \"-//Apple//DTD PLIST 1.0//EN\" " ++
   "\"http://www.apple.com/DTDs/PropertyList-1.0.dtd\">\n").toList

def kPlistStringTrue : List Char := "<true/>".toList
def kPlistStringFalse : List Char := "<false/>".toList

def kThriftVersion1 : Nat := 1

/-- The five characters replaced by XML entities
(`kEscapeChars = "\"'><&"` in the source). -/
def kEscapeChars : List Char := "\"\'><&".toList

/-! ## Lookahead primitives on a plain byte stream

The reading functions of `TPlistProtocol` only interact with
`LookaheadReader` through `read` / `peek` / `peek(n)` / `consume(n)`, whose
observable behaviour is a function of the concatenation buffer ++ source
(proved below for the faithful two-field `LookaheadReader` model).  So the
token-reading functions are modelled directly on that concatenated stream. -/

/-- `peek(n)`: next `n` bytes, or the empty string when the stream cannot
supply `n` bytes (the source's `readAll` throws, the catch returns `""`). -/
def peekN (n : Nat) (l : List Char) : List Char :=
  if n ≤ l.length then l.take n else []

/-- Space or newline, the two bytes skipped between tokens
(`kPlistSpace`, `kPlistNewline`). -/
def isWs (c : Char) : Bool := c = ' ' || c = '\n'

/-- The whitespace-skipping loop shared by `readSyntaxChar` and
`readSyntaxString`: `peek()` a byte, `read()` it while it is a space or a
newline.  `peek()` on an exhausted stream raises a transport error. -/
def skipWsE : List Char → Except PlistErr (List Char)
  | [] => .error .eofErr
  | c :: rest => if isWs c then skipWsE rest else .ok (c :: rest)

/-- `readSyntaxString(reader, str)`: skip spaces and newlines, `peek` the
length of `str`, compare, and `consume` it on success; otherwise
INVALID_DATA. -/
def readSyntaxString (str : List Char) (input : List Char) :
    Except PlistErr (List Char) :=
  match skipWsE input with
  | .error e => .error e
  | .ok i => if peekN str.length i = str then .ok (i.drop str.length)
             else .error .invalidData

/-! ## Character escaping (write side) -/

/-- `writePlistEscapeChar`: the five XML entities.  The apostrophe is
written `Char.ofNat 39`. -/
def writePlistEscapeChar (c : Char) : List Char :=
  if c = Char.ofNat 39 then "&apos;".toList
  else if c = '"' then "&quot;".toList
  else if c = '>' then "&gt;".toList
  else if c = '<' then "&lt;".toList
  else if c = '&' then "&amp;".toList
  else []

/-- `writePlistChar`: a byte is copied verbatim unless it is one of
`kEscapeChars`, in which case its entity is emitted. -/
def writePlistChar (c : Char) : List Char :=
  if kEscapeChars.contains c then writePlistEscapeChar c else [c]

/-- The body-emission loop of `writePlistString`. -/
def escapePlistString : List Char → List Char
  | [] => []
  | c :: rest => writePlistChar c ++ escapePlistString rest

/-- The body-emission loop of `writePlistKey`: `'_'` is emitted as
`writePlistChar '-'`, every other byte through `writePlistChar`. -/
def writePlistKeyChars : List Char → List Char
  | [] => []
  | c :: rest =>
      (if c = '_' then writePlistChar '-' else writePlistChar c)
        ++ writePlistKeyChars rest

/-- `readPlistKey` maps byte `'-'` to `'_'` and copies everything else. -/
def dashToUnderscore (c : Char) : Char := if c = '-' then '_' else c

/-! ## Base64 (`TBase64Utils`)

`base64_encode` / `base64_decode` live in `TBase64Utils.cpp`, which is not
part of the provided sources; only their call sites in
`writePlistBase64` / `readPlistBase64` are.  The two definitions below are
therefore modelled from the spec. -/

/-- The standard Base64 alphabet. -/
def base64Alphabet : List Char :=
  "ABCDEFGHIJKLMNOPQRSTUVWXYZabcdefghijklmnopqrstuvwxyz0123456789+/".toList

/-- Modelled from the spec: the character `base64_encode` emits for one
six-bit value (raw Base64, standard alphabet). -/
def base64EncodeChar (k : Nat) : Char := base64Alphabet.getD k 'A'

/-- Modelled from the spec: the six-bit value `base64_decode` assigns to one
Base64 character (inverse of the standard alphabet). -/
def base64DecodeVal (c : Char) : Nat :=
  if 'A' ≤ c ∧ c ≤ 'Z' then c.toNat - 65
  else if 'a' ≤ c ∧ c ≤ 'z' then c.toNat - 97 + 26
  else if '0' ≤ c ∧ c ≤ '9' then c.toNat - 48 + 52
  else if c = '+' then 62
  else if c = '/' then 63
  else 0

/-- The emission loop of `writePlistBase64`: `base64_encode` three bytes at
a time into four characters; a trailing block of `len` (1 or 2) bytes emits
`len + 1` characters (the minimum characters representing the remaining
bits) and no `=` padding.  The six-bit packing is modelled from the spec. -/
def base64EncodeList : List Nat → List Char
  | b0 :: b1 :: b2 :: rest =>
      base64EncodeChar (b0 / 4) ::
      base64EncodeChar (b0 % 4 * 16 + b1 / 16) ::
      base64EncodeChar (b1 % 16 * 4 + b2 / 64) ::
      base64EncodeChar (b2 % 64) ::
      base64EncodeList rest
  | [b0, b1] =>
      [base64EncodeChar (b0 / 4),
       base64EncodeChar (b0 % 4 * 16 + b1 / 16),
       base64EncodeChar (b1 % 16 * 4)]
  | [b0] =>
      [base64EncodeChar (b0 / 4), base64EncodeChar (b0 % 4 * 16)]
  | [] => []

/-- The decode loop of `readPlistBase64`: `base64_decode` each full
four-character group into three bytes; a trailing group of length 3 or 2
yields `length - 1` bytes; a trailing group of length 1 (or 0) is silently
ignored (`if (len > 1)` in the source).  The six-bit unpacking is modelled
from the spec. -/
def base64DecodeList : List Char → List Nat
  | c0 :: c1 :: c2 :: c3 :: rest =>
      (base64DecodeVal c0 * 4 + base64DecodeVal c1 / 16) ::
      (base64DecodeVal c1 % 16 * 16 + base64DecodeVal c2 / 4) ::
      (base64DecodeVal c2 % 4 * 64 + base64DecodeVal c3) ::
      base64DecodeList rest
  | [c0, c1, c2] =>
      [base64DecodeVal c0 * 4 + base64DecodeVal c1 / 16,
       base64DecodeVal c1 % 16 * 16 + base64DecodeVal c2 / 4]
  | [c0, c1] =>
      [base64DecodeVal c0 * 4 + base64DecodeVal c1 / 16]
  | _ => []

/-! ## The write side: contexts and the writer state -/

/-- The context hierarchy (`TPlistContext` / `PlistPairContext` /
`PlistListContext`) as a tagged variant. -/
inductive PCtx where
  | base
  | pair (first colon : Bool)
  | list (first : Bool)
deriving DecidableEq, Repr

/-- `context->write(trans)`: the updated context together with the bytes it
emits (at most one separator byte; both `kPlistPairSeparator` and
`kPlistElemSeparator` are the space character). -/
def ctxWrite : PCtx → PCtx × List Char
  | .base => (.base, [])
  | .pair true _ => (.pair false true, [])
  | .pair false colon => (.pair false (!colon), [' '])
  | .list true => (.list false, [])
  | .list false => (.list false, [' '])

/-- `context->read(reader)`: consumes nothing (the `readSyntaxChar` calls
are commented out in the source); only the context state advances. -/
def ctxRead : PCtx → PCtx
  | .base => .base
  | .pair true _ => .pair false true
  | .pair false colon => .pair false (!colon)
  | .list _ => .list false

/-- Writer state: the context stack `contexts_`, the active `context_`, and
the bytes written to the transport so far. -/
structure WState where
  contexts : List PCtx
  context : PCtx
  out : List Char
deriving DecidableEq, Repr

/-- `pushContext(c)`: the replaced context goes on the stack. -/
def pushContextW (c : PCtx) (st : WState) : WState :=
  { st with contexts := st.context :: st.contexts, context := c }

/-- `popContext()`: restore the top of the stack.  (`top()`/`pop()` on an
empty stack is undefined behaviour in C++; modelled as restoring the Base
context and leaving the empty stack.) -/
def popContextW (st : WState) : WState :=
  { st with context := st.contexts.headD .base, contexts := st.contexts.tail }

/-- `writePlistString`: separator, `<string>`, escaped body, `</string>`. -/
def writePlistString (s : List Char) (st : WState) : WState :=
  let (c', sep) := ctxWrite st.context
  { st with context := c',
            out := st.out ++ sep ++ kPlistStringStart
                   ++ escapePlistString s ++ kPlistStringEnd }

/-- `writePlistKey`: separator, `<key>`, body with `'_' → '-'` and entity
escaping, `</key>`. -/
def writePlistKey (s : List Char) (st : WState) : WState :=
  let (c', sep) := ctxWrite st.context
  { st with context := c',
            out := st.out ++ sep ++ kPlistKeyStart
                   ++ writePlistKeyChars s ++ kPlistKeyEnd }

/-- `writePlistBase64`: separator, `<data>`, Base64 body, `</data>`. -/
def writePlistBase64 (bytes : List Nat) (st : WState) : WState :=
  let (c', sep) := ctxWrite st.context
  { st with context := c',
            out := st.out ++ sep ++ kPlistBinaryStart
                   ++ base64EncodeList bytes ++ kPlistBinaryEnd }

/-- `writePlistBool`: separator, then `<true/>` or `<false/>`. -/
def writePlistBool (b : Bool) (st : WState) : WState :=
  let (c', sep) := ctxWrite st.context
  { st with context := c',
            out := st.out ++ sep
                   ++ (if b then kPlistStringTrue else kPlistStringFalse) }

/-- `writePlistInteger`: separator, `<integer>`, decimal text
(`boost::lexical_cast<std::string>`), `</integer>`. -/
def writePlistInteger (n : Int) (st : WState) : WState :=
  let (c', sep) := ctxWrite st.context
  { st with context := c',
            out := st.out ++ sep ++ kPlistIntegerStart
                   ++ (toString n).toList ++ kPlistIntegerEnd }

/-- `writePlistObjectStart`: separator, `<dict>`, push a fresh Pair
context. -/
def writePlistObjectStart (st : WState) : WState :=
  let (c', sep) := ctxWrite st.context
  pushContextW (.pair true true)
    { st with context := c', out := st.out ++ sep ++ kPlistObjectStart }

/-- `writePlistObjectEnd`: separator from the Pair context being closed,
pop, `</dict>`, and `</plist>` when the stack is now empty. -/
def writePlistObjectEnd (st : WState) : WState :=
  let (c', sep) := ctxWrite st.context
  let st1 := popContextW { st with context := c', out := st.out ++ sep }
  { st1 with out := st1.out ++ kPlistObjectEnd
                    ++ (if st1.contexts = [] then kPlistPlistEnd else []) }

/-- `writePlistArrayStart`: separator, `<array>`, push a fresh List
context. -/
def writePlistArrayStart (st : WState) : WState :=
  let (c', sep) := ctxWrite st.context
  pushContextW (.list true)
    { st with context := c', out := st.out ++ sep ++ kPlistArrayStart }

/-- `writePlistArrayEnd`: pop, `</array>` (no separator). -/
def writePlistArrayEnd (st : WState) : WState :=
  let st1 := popContextW st
  { st1 with out := st1.out ++ kPlistArrayEnd }

/-- `writeMessageBegin(name, messageType, seqid)`: `<array>`, the version
integer 1, the name string, the type and seqid integers. -/
def writeMessageBegin (name : List Char) (messageType seqid : Int)
    (st : WState) : WState :=
  writePlistInteger seqid (writePlistInteger messageType
    (writePlistString name (writePlistInteger (Int.ofNat kThriftVersion1)
      (writePlistArrayStart st))))

def writeMessageEnd (st : WState) : WState := writePlistArrayEnd st

/-- `writeStructBegin(name)` (the name is unused): when the context stack is
empty, first the XML header + DOCTYPE and `<plist version="1.0">`, then
`writePlistObjectStart`. -/
def writeStructBegin (st : WState) : WState :=
  if st.contexts = [] then
    let (c', sep) := ctxWrite st.context
    writePlistObjectStart
      { st with context := c',
                out := st.out ++ sep ++ kPlistHeader ++ kPlistPlistStart }
  else
    writePlistObjectStart st

def writeStructEnd (st : WState) : WState := writePlistObjectEnd st

/-- `writeFieldBegin(name, fieldType, fieldId)`: only the key is emitted;
field type and id are ignored. -/
def writeFieldBegin (name : List Char) (st : WState) : WState :=
  writePlistKey name st

def writeFieldEnd (st : WState) : WState := st

def writeFieldStop (st : WState) : WState := st

/-- `writeMapBegin(keyType, valType, size)`: `<array>` then `<dict>`;
key/value types and the size are not emitted. -/
def writeMapBegin (st : WState) : WState :=
  writePlistObjectStart (writePlistArrayStart st)

/-- `writeMapEnd`: `</dict>` then `</array>`. -/
def writeMapEnd (st : WState) : WState :=
  writePlistArrayEnd (writePlistObjectEnd st)

/-- `writeListBegin(elemType, size)`: `<array>` only. -/
def writeListBegin (st : WState) : WState := writePlistArrayStart st

def writeListEnd (st : WState) : WState := writePlistArrayEnd st

def writeSetBegin (st : WState) : WState := writePlistArrayStart st

def writeSetEnd (st : WState) : WState := writePlistArrayEnd st

def writeString (s : List Char) (st : WState) : WState := writePlistString s st

def writeBinary (bytes : List Nat) (st : WState) : WState :=
  writePlistBase64 bytes st

/-! ## The read side: token readers on the byte stream -/

/-- The entity dispatch inside the `readPlistString` loop at a `'&'` byte:
`peek(4)`, `peek(5)`, `peek(6)` against the five entities; the result is the
translated characters to append and the number of bytes `read()` consumes
(1 when nothing matches: the `'&'` is dropped). -/
def entityStep (l : List Char) : List Char × Nat :=
  if peekN 4 l = "&lt;".toList then (['<'], 4)
  else if peekN 4 l = "&gt;".toList then (['>'], 4)
  else if peekN 5 l = "&amp;".toList then (['&'], 5)
  else if peekN 6 l = "&apos;".toList then ([Char.ofNat 39], 6)
  else if peekN 6 l = "&quot;".toList then (['"'], 6)
  else ([], 1)

/-- The body loop of `readPlistString`: accumulate bytes until `'<'` is
peeked, translating the five entities; a `'&'` that matches no entity is
consumed and contributes nothing.  `peek()` past the end of the stream is a
transport error. -/
def readStringChars : List Char → Except PlistErr (List Char × List Char)
  | [] => .error .eofErr
  | c :: rest =>
    if c = '<' then .ok ([], c :: rest)
    else if c = '&' then
      let (tr, k) := entityStep (c :: rest)
      match readStringChars (rest.drop (k - 1)) with
      | .ok (s, r) => .ok (tr ++ s, r)
      | .error e => .error e
    else
      match readStringChars rest with
      | .ok (s, r) => .ok (c :: s, r)
      | .error e => .error e
termination_by l => l.length
decreasing_by
  · simp only [List.length_drop, List.length_cons]; omega
  · simp [List.length_cons]

/-- The body loop shared by `readPlistBinary` and `readPlistDouble`:
accumulate every byte until `'<'` is peeked, verbatim. -/
def readCharsUntilLt : List Char → Except PlistErr (List Char × List Char)
  | [] => .error .eofErr
  | c :: rest =>
    if c = '<' then .ok ([], c :: rest)
    else
      match readCharsUntilLt rest with
      | .ok (s, r) => .ok (c :: s, r)
      | .error e => .error e

/-- The body loop of `readPlistKey`: until `'<'`, mapping `'-'` to `'_'`. -/
def readKeyChars : List Char → Except PlistErr (List Char × List Char)
  | [] => .error .eofErr
  | c :: rest =>
    if c = '<' then .ok ([], c :: rest)
    else
      match readKeyChars rest with
      | .ok (s, r) => .ok (dashToUnderscore c :: s, r)
      | .error e => .error e

/-- `isPlistNumeric`: true for the characters `[-+0-9.Ee]`. -/
def isPlistNumeric (c : Char) : Bool := "+-.0123456789Ee".toList.contains c

/-- `readPlistNumericChars`: the maximal run of numeric characters. -/
def readNumericChars : List Char → Except PlistErr (List Char × List Char)
  | [] => .error .eofErr
  | c :: rest =>
    if isPlistNumeric c then
      match readNumericChars rest with
      | .ok (s, r) => .ok (c :: s, r)
      | .error e => .error e
    else .ok ([], c :: rest)

/-- The loop of `readPlistBool`: `read()` bytes, skipping spaces and
newlines, accumulating the rest up to and including the first `'>'`. -/
def readBoolChars : List Char → Except PlistErr (List Char × List Char)
  | [] => .error .eofErr
  | c :: rest =>
    if isWs c then readBoolChars rest
    else if c = '>' then .ok ([c], rest)
    else
      match readBoolChars rest with
      | .ok (s, r) => .ok (c :: s, r)
      | .error e => .error e

def digitChars : List Char := "0123456789".toList

/-- Decimal value of a digit string. -/
def digitsVal (s : List Char) : Nat :=
  s.foldl (fun a c => 10 * a + (c.toNat - 48)) 0

/-- `boost::lexical_cast<uint64_t>` over the collected numeric run,
modelled on its defined range: a non-empty all-decimal-digit string
converts to its value; any other run fails the cast (overflow of the
unbounded `Nat` is not modelled). -/
def parseUInt (s : List Char) : Option Nat :=
  if s ≠ [] ∧ s.all (fun c => digitChars.contains c) then some (digitsVal s)
  else none

/-- `readPlistString` (the context `read` hook consumes nothing). -/
def readPlistStringTok (input : List Char) :
    Except PlistErr (List Char × List Char) :=
  match readSyntaxString kPlistStringStart input with
  | .error e => .error e
  | .ok i =>
    match readStringChars i with
    | .error e => .error e
    | .ok (s, r) =>
      match readSyntaxString kPlistStringEnd r with
      | .error e => .error e
      | .ok r2 => .ok (s, r2)

/-- `readPlistBinary`: `<data>`, verbatim bytes until `'<'`, `</data>`. -/
def readPlistBinaryTok (input : List Char) :
    Except PlistErr (List Char × List Char) :=
  match readSyntaxString kPlistBinaryStart input with
  | .error e => .error e
  | .ok i =>
    match readCharsUntilLt i with
    | .error e => .error e
    | .ok (s, r) =>
      match readSyntaxString kPlistBinaryEnd r with
      | .error e => .error e
      | .ok r2 => .ok (s, r2)

/-- `readPlistBase64` (= `readBinary`): read the `<data>` body and Base64
decode it. -/
def readPlistBase64Tok (input : List Char) :
    Except PlistErr (List Nat × List Char) :=
  match readPlistBinaryTok input with
  | .error e => .error e
  | .ok (tmp, r) => .ok (base64DecodeList tmp, r)

/-- `readPlistKey`: `<key>`, body with `'-' → '_'`, `</key>`. -/
def readPlistKeyTok (input : List Char) :
    Except PlistErr (List Char × List Char) :=
  match readSyntaxString kPlistKeyStart input with
  | .error e => .error e
  | .ok i =>
    match readKeyChars i with
    | .error e => .error e
    | .ok (s, r) =>
      match readSyntaxString kPlistKeyEnd r with
      | .error e => .error e
      | .ok r2 => .ok (s, r2)

/-- `readPlistBool`: collect the tag and compare with `<true/>` and
`<false/>`. -/
def readPlistBoolTok (input : List Char) :
    Except PlistErr (Bool × List Char) :=
  match readBoolChars input with
  | .error e => .error e
  | .ok (s, r) =>
    if s = kPlistStringTrue then .ok (true, r)
    else if s = kPlistStringFalse then .ok (false, r)
    else .error .invalidData

/-- `readPlistInteger`: `<integer>`, numeric run, cast, `</integer>`. -/
def readPlistIntegerTok (input : List Char) :
    Except PlistErr (Nat × List Char) :=
  match readSyntaxString kPlistIntegerStart input with
  | .error e => .error e
  | .ok i =>
    match readNumericChars i with
    | .error e => .error e
    | .ok (ds, r) =>
      match parseUInt ds with
      | none => .error .invalidData
      | some v =>
        match readSyntaxString kPlistIntegerEnd r with
        | .error e => .error e
        | .ok r2 => .ok (v, r2)

/-- `readPlistDouble`: `<real>`, bytes until `'<'`, `</real>`.  The value
delivered is the collected text; the host text-to-float conversion
(`NaN` / `Infinity` / `-Infinity` matching, `boost::lexical_cast<double>`)
is a pure function of that text and floating point is not modelled. -/
def readPlistDoubleTok (input : List Char) :
    Except PlistErr (List Char × List Char) :=
  match readSyntaxString kPlistRealStart input with
  | .error e => .error e
  | .ok i =>
    match readCharsUntilLt i with
    | .error e => .error e
    | .ok (s, r) =>
      match readSyntaxString kPlistRealEnd r with
      | .error e => .error e
      | .ok r2 => .ok (s, r2)

/-- `readPlistObjectStart`, stream part: match `<dict>`. -/
def readPlistObjectStartS (input : List Char) : Except PlistErr (List Char) :=
  readSyntaxString kPlistObjectStart input

/-- `readPlistObjectEnd`, stream part: match `</dict>`; `stackEmpty` is
whether `contexts_` is empty after the pop, in which case `</plist>` is
also read. -/
def readPlistObjectEndS (stackEmpty : Bool) (input : List Char) :
    Except PlistErr (List Char) :=
  match readSyntaxString kPlistObjectEnd input with
  | .error e => .error e
  | .ok i => if stackEmpty then readSyntaxString kPlistPlistEnd i else .ok i

/-- `readPlistArrayStart`, stream part: match `<array>`. -/
def readPlistArrayStartS (input : List Char) : Except PlistErr (List Char) :=
  readSyntaxString kPlistArrayStart input

/-- `readPlistArrayEnd`, stream part: match `</array>`. -/
def readPlistArrayEndS (input : List Char) : Except PlistErr (List Char) :=
  readSyntaxString kPlistArrayEnd input

/-- `readListBegin` / `readSetBegin` consume `<array>` (the reported size is
the constant `UINT32_MAX`). -/
def readListBeginS (input : List Char) : Except PlistErr (List Char) :=
  readPlistArrayStartS input

def readListEndS (input : List Char) : Except PlistErr (List Char) :=
  readPlistArrayEndS input

/-- `readMapBegin` consumes `<array>` then `<dict>`. -/
def readMapBeginS (input : List Char) : Except PlistErr (List Char) :=
  match readPlistArrayStartS input with
  | .error e => .error e
  | .ok i => readPlistObjectStartS i

/-- `readMapEnd` consumes `</dict>` then `</array>`; `stackEmpty` as in
`readPlistObjectEndS`. -/
def readMapEndS (stackEmpty : Bool) (input : List Char) :
    Except PlistErr (List Char) :=
  match readPlistObjectEndS stackEmpty input with
  | .error e => .error e
  | .ok i => readPlistArrayEndS i

/-- The prologue skip of `readStructBegin` at the top level: `read()` up to
and including a `'>'`. -/
def skipToGt : List Char → Except PlistErr (List Char)
  | [] => .error .eofErr
  | c :: rest => if c = '>' then .ok rest else skipToGt rest

/-- `readStructBegin` with `contexts_` empty: discard three `>`-terminated
prefixes (XML prolog, DOCTYPE, `<plist>`), then `<dict>`. -/
def readStructBeginTopS (input : List Char) : Except PlistErr (List Char) :=
  match skipToGt input with
  | .error e => .error e
  | .ok i1 =>
    match skipToGt i1 with
    | .error e => .error e
    | .ok i2 =>
      match skipToGt i2 with
      | .error e => .error e
      | .ok i3 => readPlistObjectStartS i3

/-- `readStructBegin` with `contexts_` non-empty: just `<dict>`. -/
def readStructBeginNestedS (input : List Char) : Except PlistErr (List Char) :=
  readPlistObjectStartS input

/-- `readStructEnd` = `readPlistObjectEnd`. -/
def readStructEndS (stackEmpty : Bool) (input : List Char) :
    Except PlistErr (List Char) :=
  readPlistObjectEndS stackEmpty input

/-- The thrift field types relevant to `readFieldBegin`: `T_STOP` for the
terminal sentinel, `T_VOID` (unspecified) otherwise. -/
inductive TType where
  | T_STOP
  | T_VOID
deriving DecidableEq, Repr

/-- Result of `readFieldBegin`: the sentinel leaves `name` and `fieldId`
untouched and sets the type to `T_STOP`; otherwise the key becomes the
name, the type stays `T_VOID` and the id is set to `-1`. -/
inductive FieldRead where
  | stop
  | field (name : List Char) (fieldId : Int)
deriving DecidableEq, Repr

/-- The `fieldType` reported for a `FieldRead`. -/
def FieldRead.ftype : FieldRead → TType
  | .stop => .T_STOP
  | .field _ _ => .T_VOID

/-- `readFieldBegin`: skip spaces and newlines, `peek` the length of
`</dict>`; on a match report the sentinel without consuming; otherwise read
a key. -/
def readFieldBeginTok (input : List Char) :
    Except PlistErr (FieldRead × List Char) :=
  match skipWsE input with
  | .error e => .error e
  | .ok i =>
    if peekN kPlistObjectEnd.length i = kPlistObjectEnd then .ok (.stop, i)
    else
      match readPlistKeyTok i with
      | .error e => .error e
      | .ok (name, r) => .ok (.field name (-1), r)

/-- `readMessageBegin`: `<array>`, an integer that must be the version 1
(else BAD_VERSION), then the name string and the type and seqid
integers. -/
def readMessageBeginTok (input : List Char) :
    Except PlistErr ((List Char × Nat × Nat) × List Char) :=
  match readPlistArrayStartS input with
  | .error e => .error e
  | .ok i1 =>
    match readPlistIntegerTok i1 with
    | .error e => .error e
    | .ok (v, i2) =>
      if v ≠ kThriftVersion1 then .error .badVersion
      else
        match readPlistStringTok i2 with
        | .error e => .error e
        | .ok (name, i3) =>
          match readPlistIntegerTok i3 with
          | .error e => .error e
          | .ok (mt, i4) =>
            match readPlistIntegerTok i4 with
            | .error e => .error e
            | .ok (sq, i5) => .ok ((name, mt, sq), i5)

/-! ## The read side with the context stack (for the stack-discipline
claims) -/

/-- Reader-side protocol state: the remaining input, the active context and
the context stack. -/
structure RState where
  input : List Char
  context : PCtx
  contexts : List PCtx
deriving DecidableEq, Repr

/-- `readPlistObjectStart`: context `read` hook, `<dict>`, push a fresh
Pair context. -/
def readPlistObjectStartR (st : RState) : Except PlistErr RState :=
  let c' := ctxRead st.context
  match readSyntaxString kPlistObjectStart st.input with
  | .error e => .error e
  | .ok i => .ok ⟨i, .pair true true, c' :: st.contexts⟩

/-- `readPlistObjectEnd`: `</dict>`, pop, and when the stack is now empty
also `</plist>`. -/
def readPlistObjectEndR (st : RState) : Except PlistErr RState :=
  match readSyntaxString kPlistObjectEnd st.input with
  | .error e => .error e
  | .ok i =>
    if st.contexts.tail = [] then
      match readSyntaxString kPlistPlistEnd i with
      | .error e => .error e
      | .ok i2 => .ok ⟨i2, st.contexts.headD .base, st.contexts.tail⟩
    else .ok ⟨i, st.contexts.headD .base, st.contexts.tail⟩

/-- `readPlistArrayStart`: context `read` hook, `<array>`, push a fresh
List context. -/
def readPlistArrayStartR (st : RState) : Except PlistErr RState :=
  let c' := ctxRead st.context
  match readSyntaxString kPlistArrayStart st.input with
  | .error e => .error e
  | .ok i => .ok ⟨i, .list true, c' :: st.contexts⟩

/-- `readPlistArrayEnd`: `</array>`, pop. -/
def readPlistArrayEndR (st : RState) : Except PlistErr RState :=
  match readSyntaxString kPlistArrayEnd st.input with
  | .error e => .error e
  | .ok i => .ok ⟨i, st.contexts.headD .base, st.contexts.tail⟩

/-- `readMapBegin`: `<array>` then `<dict>` (two pushes). -/
def readMapBeginR (st : RState) : Except PlistErr RState :=
  match readPlistArrayStartR st with
  | .error e => .error e
  | .ok st1 => readPlistObjectStartR st1

/-- `readMapEnd`: `</dict>` then `</array>` (two pops). -/
def readMapEndR (st : RState) : Except PlistErr RState :=
  match readPlistObjectEndR st with
  | .error e => .error e
  | .ok st1 => readPlistArrayEndR st1

/-! ## The LookaheadReader (`TPlistProtocol.h`) -/

/-- `LookaheadReader`: an internal byte buffer in front of the transport
source.  (The `new char(toread)` single-byte allocation in `peek(size)` and
`consume(size)` is a memory-safety typo with no counterpart at this level:
the bytes flowing through `readAll` / `append` are modelled exactly.) -/
structure LookaheadReader where
  buffer : List Char
  source : List Char
deriving DecidableEq, Repr

/-- The byte sequence a reader will deliver: buffer first, then source. -/
def LookaheadReader.stream (r : LookaheadReader) : List Char :=
  r.buffer ++ r.source

/-- `read()`: drain the buffer first, else one byte from the source
(`readAll` on an exhausted source throws). -/
def LookaheadReader.read :
    LookaheadReader → Except PlistErr (Char × LookaheadReader)
  | ⟨c :: b, s⟩ => .ok (c, ⟨b, s⟩)
  | ⟨[], c :: s⟩ => .ok (c, ⟨[], s⟩)
  | ⟨[], []⟩ => .error .eofErr

/-- `peek(size)`: if the buffer already holds `size` bytes return its
prefix; otherwise `readAll` the shortfall, append it to the buffer and
return the buffer; if the source cannot supply the shortfall the exception
is caught and the empty string returned with the buffer unchanged. -/
def LookaheadReader.peekSize (n : Nat) (r : LookaheadReader) :
    List Char × LookaheadReader :=
  if n ≤ r.buffer.length then (r.buffer.take n, r)
  else if n - r.buffer.length ≤ r.source.length then
    (r.buffer ++ r.source.take (n - r.buffer.length),
     ⟨r.buffer ++ r.source.take (n - r.buffer.length),
      r.source.drop (n - r.buffer.length)⟩)
  else ([], r)

/-- `consume(size)`: discard `size` bytes straddling buffer and source
(`readAll` of a missing shortfall throws and is not caught here). -/
def LookaheadReader.consume (n : Nat) (r : LookaheadReader) :
    Except PlistErr LookaheadReader :=
  if n ≤ r.buffer.length then .ok ⟨r.buffer.drop n, r.source⟩
  else if n - r.buffer.length ≤ r.source.length then
    .ok ⟨[], r.source.drop (n - r.buffer.length)⟩
  else .error .eofErr

/-! ## A decidable `lone ampersand` condition (read side) -/

/-- `lonelyAmps tail body` holds when every `'&'` in `body` fails the
entity dispatch of `readPlistString` (the reader peeks into
`body`-remainder ++ `tail`). -/
def lonelyAmps (tail : List Char) : List Char → Bool
  | [] => true
  | c :: rest =>
    (if c = '&' then decide (entityStep ('&' :: (rest ++ tail)) = ([], 1))
     else true)
    && lonelyAmps tail rest

/-! ## Helper lemmas: whitespace skipping and literal matching -/

theorem peekN_append (s t : List Char) : peekN s.length (s ++ t) = s := by
  simp [peekN, List.take_left]

theorem skipWsE_all_ws (w : List Char) (hw : w.all isWs = true)
    (i : List Char) : skipWsE (w ++ i) = skipWsE i := by
  induction w with
  | nil => rfl
  | cons c w ih =>
    simp only [List.all_cons, Bool.and_eq_true] at hw
    simp [skipWsE, hw.1, ih hw.2]

theorem readSyntaxString_ws (str w i : List Char) (hw : w.all isWs = true) :
    readSyntaxString str (w ++ i) = readSyntaxString str i := by
  unfold readSyntaxString
  rw [skipWsE_all_ws w hw]

theorem readSyntaxString_self (str τ : List Char) (h1 : str ≠ [])
    (h2 : isWs (str.headD ' ') = false) :
    readSyntaxString str (str ++ τ) = .ok τ := by
  have h3 : skipWsE (str ++ τ) = .ok (str ++ τ) := by
    cases str with
    | nil => exact absurd rfl h1
    | cons c s =>
      simp only [List.headD_cons] at h2
      simp [skipWsE, h2]
  simp [readSyntaxString, h3, peekN_append, List.drop_left]

theorem readBoolChars_ws (w : List Char) (hw : w.all isWs = true)
    (i : List Char) : readBoolChars (w ++ i) = readBoolChars i := by
  induction w with
  | nil => rfl
  | cons c w ih =>
    simp only [List.all_cons, Bool.and_eq_true] at hw
    simp [readBoolChars, hw.1, ih hw.2]

theorem skipToGt_ws (w : List Char) (hw : w.all isWs = true)
    (i : List Char) : skipToGt (w ++ i) = skipToGt i := by
  induction w with
  | nil => rfl
  | cons c w ih =>
    simp only [List.all_cons, Bool.and_eq_true] at hw
    have hc : ¬ c = '>' := by
      intro h
      rw [h] at hw
      simp [isWs] at hw
    simp [skipToGt, hc, ih hw.2]

theorem skipWsE_ws (w : List Char) (hw : w.all isWs = true)
    (i : List Char) : skipWsE (w ++ i) = skipWsE i :=
  skipWsE_all_ws w hw i

/-! ## Helper lemmas: the body-collection loops -/

theorem readCharsUntilLt_append (body τ : List Char) (h : '<' ∉ body) :
    readCharsUntilLt (body ++ '<' :: τ) = .ok (body, '<' :: τ) := by
  induction body with
  | nil => simp [readCharsUntilLt]
  | cons c b ih =>
    simp only [List.mem_cons, not_or] at h
    have hc : ¬ c = '<' := fun h' => h.1 h'.symm
    simp [readCharsUntilLt, hc, ih h.2]

theorem readKeyChars_append (body τ : List Char) (h : '<' ∉ body) :
    readKeyChars (body ++ '<' :: τ)
      = .ok (body.map dashToUnderscore, '<' :: τ) := by
  induction body with
  | nil => simp [readKeyChars]
  | cons c b ih =>
    simp only [List.mem_cons, not_or] at h
    have hc : ¬ c = '<' := fun h' => h.1 h'.symm
    simp [readKeyChars, hc, ih h.2]

theorem readNumericChars_append (ds τ : List Char)
    (h : ∀ c ∈ ds, isPlistNumeric c = true) :
    readNumericChars (ds ++ '<' :: τ) = .ok (ds, '<' :: τ) := by
  induction ds with
  | nil => simp [readNumericChars, show isPlistNumeric '<' = false by decide]
  | cons c d ih =>
    have hc : isPlistNumeric c = true := h c (by simp)
    simp [readNumericChars, hc, ih (fun x hx => h x (by simp [hx]))]

/-! ## Helper lemmas: entity translation -/

theorem peekN_cons_of_le (n : Nat) (l : List Char) (h : n ≤ l.length) :
    peekN n l = l.take n := by simp [peekN, h]

theorem entityStep_lt (τ : List Char) :
    entityStep ('&' :: 'l' :: 't' :: ';' :: τ) = (['<'], 4) := by
  have h4 : peekN 4 ('&' :: 'l' :: 't' :: ';' :: τ) = "&lt;".toList := by
    rw [peekN_cons_of_le 4 _ (by simp)]
    rfl
  simp [entityStep, h4]

theorem entityStep_gt (τ : List Char) :
    entityStep ('&' :: 'g' :: 't' :: ';' :: τ) = (['>'], 4) := by
  have h4 : peekN 4 ('&' :: 'g' :: 't' :: ';' :: τ) = "&gt;".toList := by
    rw [peekN_cons_of_le 4 _ (by simp)]
    rfl
  unfold entityStep
  rw [h4, if_neg (by decide), if_pos rfl]

theorem entityStep_amp (τ : List Char) :
    entityStep ('&' :: 'a' :: 'm' :: 'p' :: ';' :: τ) = (['&'], 5) := by
  have h4 : peekN 4 ('&' :: 'a' :: 'm' :: 'p' :: ';' :: τ)
      = ['&', 'a', 'm', 'p'] := by
    rw [peekN_cons_of_le 4 _ (by simp)]
    rfl
  have h5 : peekN 5 ('&' :: 'a' :: 'm' :: 'p' :: ';' :: τ)
      = "&amp;".toList := by
    rw [peekN_cons_of_le 5 _ (by simp)]
    rfl
  unfold entityStep
  rw [h4, h5, if_neg (by decide), if_neg (by decide), if_pos rfl]

theorem entityStep_apos (τ : List Char) :
    entityStep ('&' :: 'a' :: 'p' :: 'o' :: 's' :: ';' :: τ)
      = ([Char.ofNat 39], 6) := by
  have h4 : peekN 4 ('&' :: 'a' :: 'p' :: 'o' :: 's' :: ';' :: τ)
      = ['&', 'a', 'p', 'o'] := by
    rw [peekN_cons_of_le 4 _ (by simp)]
    rfl
  have h5 : peekN 5 ('&' :: 'a' :: 'p' :: 'o' :: 's' :: ';' :: τ)
      = ['&', 'a', 'p', 'o', 's'] := by
    rw [peekN_cons_of_le 5 _ (by simp)]
    rfl
  have h6 : peekN 6 ('&' :: 'a' :: 'p' :: 'o' :: 's' :: ';' :: τ)
      = "&apos;".toList := by
    rw [peekN_cons_of_le 6 _ (by simp)]
    rfl
  unfold entityStep
  rw [h4, h5, h6, if_neg (by decide), if_neg (by decide), if_neg (by decide),
     if_pos rfl]

theorem entityStep_quot (τ : List Char) :
    entityStep ('&' :: 'q' :: 'u' :: 'o' :: 't' :: ';' :: τ)
      = (['"'], 6) := by
  have h4 : peekN 4 ('&' :: 'q' :: 'u' :: 'o' :: 't' :: ';' :: τ)
      = ['&', 'q', 'u', 'o'] := by
    rw [peekN_cons_of_le 4 _ (by simp)]
    rfl
  have h5 : peekN 5 ('&' :: 'q' :: 'u' :: 'o' :: 't' :: ';' :: τ)
      = ['&', 'q', 'u', 'o', 't'] := by
    rw [peekN_cons_of_le 5 _ (by simp)]
    rfl
  have h6 : peekN 6 ('&' :: 'q' :: 'u' :: 'o' :: 't' :: ';' :: τ)
      = "&quot;".toList := by
    rw [peekN_cons_of_le 6 _ (by simp)]
    rfl
  unfold entityStep
  rw [h4, h5, h6, if_neg (by decide), if_neg (by decide), if_neg (by decide),
     if_neg (by decide), if_pos rfl]

/-- Reading back the escaped body of `writePlistString` recovers the
original characters and stops at the terminating `'<'`. -/
theorem readStringChars_escape (s τ : List Char) :
    readStringChars (escapePlistString s ++ '<' :: τ) = .ok (s, '<' :: τ) := by
  induction s with
  | nil => simp [escapePlistString, readStringChars]
  | cons c s ih =>
    by_cases hc : kEscapeChars.contains c = true
    · have hmem : c ∈ kEscapeChars := by simpa using hc
      rw [show kEscapeChars = ['"', Char.ofNat 39, '>', '<', '&'] from rfl]
        at hmem
      simp only [List.mem_cons, List.not_mem_nil, or_false] at hmem
      rcases hmem with rfl | rfl | rfl | rfl | rfl
      · have hw : writePlistChar '"' = '&' :: 'q' :: 'u' :: 'o' :: 't' :: ';' :: [] := by
          decide
        simp only [escapePlistString, hw, List.cons_append, List.nil_append,
          List.append_assoc]
        rw [readStringChars, if_neg (by decide), if_pos rfl, entityStep_quot]
        simp [ih]
      · have hw : writePlistChar (Char.ofNat 39)
            = '&' :: 'a' :: 'p' :: 'o' :: 's' :: ';' :: [] := by decide
        simp only [escapePlistString, hw, List.cons_append, List.nil_append,
          List.append_assoc]
        rw [readStringChars, if_neg (by decide), if_pos rfl, entityStep_apos]
        simp [ih]
      · have hw : writePlistChar '>' = '&' :: 'g' :: 't' :: ';' :: [] := by
          decide
        simp only [escapePlistString, hw, List.cons_append, List.nil_append,
          List.append_assoc]
        rw [readStringChars, if_neg (by decide), if_pos rfl, entityStep_gt]
        simp [ih]
      · have hw : writePlistChar '<' = '&' :: 'l' :: 't' :: ';' :: [] := by
          decide
        simp only [escapePlistString, hw, List.cons_append, List.nil_append,
          List.append_assoc]
        rw [readStringChars, if_neg (by decide), if_pos rfl, entityStep_lt]
        simp [ih]
      · have hw : writePlistChar '&' = '&' :: 'a' :: 'm' :: 'p' :: ';' :: [] := by
          decide
        simp only [escapePlistString, hw, List.cons_append, List.nil_append,
          List.append_assoc]
        rw [readStringChars, if_neg (by decide), if_pos rfl, entityStep_amp]
        simp [ih]
    · have h1 : ¬ c = '<' := by
        intro h
        rw [h] at hc
        exact hc (by decide)
      have h2 : ¬ c = '&' := by
        intro h
        rw [h] at hc
        exact hc (by decide)
      have hw : writePlistChar c = [c] := by
        unfold writePlistChar
        rw [if_neg hc]
      simp only [escapePlistString, hw, List.cons_append, List.nil_append,
        List.append_assoc]
      rw [readStringChars, if_neg h1, if_neg h2, ih]

/-! ## Helper lemmas: Base64 -/

theorem base64DecodeVal_encodeChar :
    ∀ k : Nat, k < 64 → base64DecodeVal (base64EncodeChar k) = k := by
  decide

theorem base64EncodeChar_ne_lt :
    ∀ k : Nat, k < 64 → ¬ base64EncodeChar k = '<' := by
  decide

theorem base64_round_trip : ∀ bs : List Nat, (∀ b ∈ bs, b < 256) →
    base64DecodeList (base64EncodeList bs) = bs
  | [], _ => rfl
  | [b0], h => by
    have h0 : b0 < 256 := h b0 (by simp)
    have e0 := base64DecodeVal_encodeChar (b0 / 4) (by omega)
    have e1 := base64DecodeVal_encodeChar (b0 % 4 * 16) (by omega)
    simp only [base64EncodeList, base64DecodeList, e0, e1]
    rw [List.cons.injEq]
    constructor
    · omega
    · rfl
  | [b0, b1], h => by
    have h0 : b0 < 256 := h b0 (by simp)
    have h1 : b1 < 256 := h b1 (by simp)
    have e0 := base64DecodeVal_encodeChar (b0 / 4) (by omega)
    have e1 := base64DecodeVal_encodeChar (b0 % 4 * 16 + b1 / 16) (by omega)
    have e2 := base64DecodeVal_encodeChar (b1 % 16 * 4) (by omega)
    simp only [base64EncodeList, base64DecodeList, e0, e1, e2]
    rw [List.cons.injEq, List.cons.injEq]
    refine ⟨by omega, by omega, rfl⟩
  | b0 :: b1 :: b2 :: rest, h => by
    have h0 : b0 < 256 := h b0 (by simp)
    have h1 : b1 < 256 := h b1 (by simp)
    have h2 : b2 < 256 := h b2 (by simp)
    have e0 := base64DecodeVal_encodeChar (b0 / 4) (by omega)
    have e1 := base64DecodeVal_encodeChar (b0 % 4 * 16 + b1 / 16) (by omega)
    have e2 := base64DecodeVal_encodeChar (b1 % 16 * 4 + b2 / 64) (by omega)
    have e3 := base64DecodeVal_encodeChar (b2 % 64) (by omega)
    have ih := base64_round_trip rest (fun b hb => h b (by simp [hb]))
    simp only [base64EncodeList, base64DecodeList, e0, e1, e2, e3, ih]
    rw [List.cons.injEq, List.cons.injEq, List.cons.injEq]
    refine ⟨by omega, by omega, by omega, rfl⟩

theorem base64EncodeList_no_lt : ∀ bs : List Nat, (∀ b ∈ bs, b < 256) →
    '<' ∉ base64EncodeList bs
  | [], _ => by simp [base64EncodeList]
  | [b0], h => by
    have h0 : b0 < 256 := h b0 (by simp)
    simp only [base64EncodeList, List.mem_cons, List.not_mem_nil, or_false]
    push_neg
    exact ⟨fun hx => base64EncodeChar_ne_lt _ (by omega) hx.symm,
           fun hx => base64EncodeChar_ne_lt _ (by omega) hx.symm⟩
  | [b0, b1], h => by
    have h0 : b0 < 256 := h b0 (by simp)
    have h1 : b1 < 256 := h b1 (by simp)
    simp only [base64EncodeList, List.mem_cons, List.not_mem_nil, or_false]
    push_neg
    exact ⟨fun hx => base64EncodeChar_ne_lt _ (by omega) hx.symm,
           fun hx => base64EncodeChar_ne_lt _ (by omega) hx.symm,
           fun hx => base64EncodeChar_ne_lt _ (by omega) hx.symm⟩
  | b0 :: b1 :: b2 :: rest, h => by
    have h0 : b0 < 256 := h b0 (by simp)
    have h1 : b1 < 256 := h b1 (by simp)
    have h2 : b2 < 256 := h b2 (by simp)
    have ih := base64EncodeList_no_lt rest (fun b hb => h b (by simp [hb]))
    simp only [base64EncodeList, List.mem_cons, not_or]
    refine ⟨fun hx => base64EncodeChar_ne_lt _ (by omega) hx.symm,
            fun hx => base64EncodeChar_ne_lt _ (by omega) hx.symm,
            fun hx => base64EncodeChar_ne_lt _ (by omega) hx.symm,
            fun hx => base64EncodeChar_ne_lt _ (by omega) hx.symm,
            ih⟩

/-! ## Helper lemmas: writer contexts -/

/-- Whatever the context, `context->write` emits only whitespace (the
separator is a space or nothing). -/
theorem ctxWrite_sep_ws (c : PCtx) : (ctxWrite c).2.all isWs = true := by
  rcases c with _ | ⟨f, co⟩ | f
  · rfl
  · cases f <;> rfl
  · cases f <;> rfl

/-- C1: `writeString` emits `<string>`, the body with the five reserved
characters replaced by their entities and every other byte verbatim, and
`</string>`; `readString` reverses exactly those five translations, so the
write–read composition returns the original string, whatever the writer
context and whatever follows on the stream. -/
theorem c1_string_round_trip (cs : List PCtx) (ctx : PCtx)
    (s rest : List Char) :
    readPlistStringTok ((writePlistString s ⟨cs, ctx, []⟩).out ++ rest)
      = .ok (s, rest) := by
  unfold writePlistString readPlistStringTok
  simp only [List.nil_append, List.append_assoc]
  rw [readSyntaxString_ws _ _ _ (ctxWrite_sep_ws ctx),
      readSyntaxString_self _ _ (by decide) (by decide)]
  have hend : kPlistStringEnd ++ rest = '<' :: ("/string>".toList ++ rest) :=
    rfl
  show (match readStringChars (escapePlistString s
          ++ ('<' :: ("/string>".toList ++ rest))) with
    | .error e => .error e
    | .ok (s, r) =>
      match readSyntaxString kPlistStringEnd r with
      | .error e => .error e
      | .ok r2 => Except.ok (s, r2)) = Except.ok (s, rest)
  rw [readStringChars_escape, ← hend]
  show (match readSyntaxString kPlistStringEnd (kPlistStringEnd ++ rest) with
    | .error e => .error e
    | .ok r2 => Except.ok (s, r2)) = Except.ok (s, rest)
  rw [readSyntaxString_self _ _ (by decide) (by decide)]

/-- C2: `writeBinary` emits `<data>`, the Base64 of the bytes with one
four-character group per three-byte block, `len + 1` characters and no `=`
padding for a trailing block of `len` (1 or 2) bytes, and `</data>`;
`readBinary` decodes full four-character groups to three bytes and a
trailing group of length 2 or 3 to one fewer byte, ignoring a trailing
group of length 1; the composition returns the original bytes. -/
theorem c2_binary_round_trip (cs : List PCtx) (ctx : PCtx) (bs : List Nat)
    (rest : List Char) (h : ∀ b ∈ bs, b < 256) :
    readPlistBase64Tok ((writePlistBase64 bs ⟨cs, ctx, []⟩).out ++ rest)
      = .ok (bs, rest) := by
  unfold writePlistBase64 readPlistBase64Tok readPlistBinaryTok
  simp only [List.nil_append, List.append_assoc]
  rw [readSyntaxString_ws _ _ _ (ctxWrite_sep_ws ctx),
      readSyntaxString_self _ _ (by decide) (by decide)]
  have hend : kPlistBinaryEnd ++ rest = '<' :: ("/data>".toList ++ rest) :=
    rfl
  show (match (match readCharsUntilLt (base64EncodeList bs
          ++ ('<' :: ("/data>".toList ++ rest))) with
      | Except.error e => Except.error e
      | Except.ok (s, r) =>
        match readSyntaxString kPlistBinaryEnd r with
        | Except.error e => Except.error e
        | Except.ok r2 => Except.ok (s, r2)) with
    | Except.error e => Except.error e
    | Except.ok (tmp, r) => Except.ok (base64DecodeList tmp, r))
    = Except.ok (bs, rest)
  rw [readCharsUntilLt_append _ _ (base64EncodeList_no_lt bs h), ← hend]
  show (match (match readSyntaxString kPlistBinaryEnd (kPlistBinaryEnd ++ rest)
        with
      | Except.error e => Except.error e
      | Except.ok r2 => Except.ok (base64EncodeList bs, r2)) with
    | Except.error e => Except.error e
    | Except.ok (tmp, r) => Except.ok (base64DecodeList tmp, r))
    = Except.ok (bs, rest)
  rw [readSyntaxString_self _ _ (by decide) (by decide)]
  show Except.ok (base64DecodeList (base64EncodeList bs), rest)
    = Except.ok (bs, rest)
  rw [base64_round_trip bs h]

/-- C3: with an empty context stack, `writeStructBegin` first emits the XML
declaration + DOCTYPE header and `<plist version="1.0">` before `<dict>`,
leaving one context on the stack; the matching `writeStructEnd` emits
`</dict>` and then, having popped back to an empty stack, `</plist>`.  With
a non-empty stack (a nested struct), the pair emits neither the prologue
nor `</plist>`. -/
theorem c3_plist_framing (st : WState) :
    (st.contexts = [] →
      (writeStructBegin st).out
        = st.out ++ (ctxWrite st.context).2 ++ kPlistHeader ++ kPlistPlistStart
          ++ (ctxWrite (ctxWrite st.context).1).2 ++ kPlistObjectStart
      ∧ (writeStructBegin st).contexts.length = 1)
    ∧ (st.contexts ≠ [] →
      (writeStructBegin st).out
        = st.out ++ (ctxWrite st.context).2 ++ kPlistObjectStart
      ∧ (writeStructBegin st).contexts.length = st.contexts.length + 1)
    ∧ (st.contexts.length = 1 →
      (writeStructEnd st).out
        = st.out ++ (ctxWrite st.context).2 ++ kPlistObjectEnd ++ kPlistPlistEnd
      ∧ (writeStructEnd st).contexts = [])
    ∧ (2 ≤ st.contexts.length →
      (writeStructEnd st).out
        = st.out ++ (ctxWrite st.context).2 ++ kPlistObjectEnd
      ∧ (writeStructEnd st).contexts.length = st.contexts.length - 1) := by
  refine ⟨fun h => ?_, fun h => ?_, fun h => ?_, fun h => ?_⟩
  · simp [writeStructBegin, writePlistObjectStart, pushContextW, h,
      List.append_assoc]
  · simp [writeStructBegin, writePlistObjectStart, pushContextW, h,
      List.append_assoc]
  · obtain ⟨c, hc⟩ := List.length_eq_one.mp h
    simp [writeStructEnd, writePlistObjectEnd, popContextW, hc,
      List.append_assoc]
  · have ht : st.contexts.tail ≠ [] := by
      have := List.length_tail st.contexts
      intro he
      rw [he] at this
      simp at this
      omega
    simp [writeStructEnd, writePlistObjectEnd, popContextW, ht,
      List.append_assoc, List.length_tail]

/-! ## Helper lemmas: whitespace invariance of each read operation -/

/-- `f` decodes the same value, leaves the same remaining stream and raises
the same error when a run of spaces and newlines is prepended to its
input. -/
def WsInvariant {α : Type} (f : List Char → Except PlistErr α) : Prop :=
  ∀ w input, w.all isWs = true → f (w ++ input) = f input

theorem readPlistStringTok_ws : WsInvariant readPlistStringTok := by
  intro w input hw
  unfold readPlistStringTok
  rw [readSyntaxString_ws _ _ _ hw]

theorem readPlistBinaryTok_ws : WsInvariant readPlistBinaryTok := by
  intro w input hw
  unfold readPlistBinaryTok
  rw [readSyntaxString_ws _ _ _ hw]

theorem readPlistBase64Tok_ws : WsInvariant readPlistBase64Tok := by
  intro w input hw
  unfold readPlistBase64Tok
  rw [readPlistBinaryTok_ws _ _ hw]

theorem readPlistKeyTok_ws : WsInvariant readPlistKeyTok := by
  intro w input hw
  unfold readPlistKeyTok
  rw [readSyntaxString_ws _ _ _ hw]

theorem readPlistBoolTok_ws : WsInvariant readPlistBoolTok := by
  intro w input hw
  unfold readPlistBoolTok
  rw [readBoolChars_ws _ hw]

theorem readPlistIntegerTok_ws : WsInvariant readPlistIntegerTok := by
  intro w input hw
  unfold readPlistIntegerTok
  rw [readSyntaxString_ws _ _ _ hw]

theorem readPlistDoubleTok_ws : WsInvariant readPlistDoubleTok := by
  intro w input hw
  unfold readPlistDoubleTok
  rw [readSyntaxString_ws _ _ _ hw]

theorem readPlistObjectStartS_ws : WsInvariant readPlistObjectStartS := by
  intro w input hw
  unfold readPlistObjectStartS
  rw [readSyntaxString_ws _ _ _ hw]

theorem readPlistObjectEndS_ws (b : Bool) :
    WsInvariant (readPlistObjectEndS b) := by
  intro w input hw
  unfold readPlistObjectEndS
  rw [readSyntaxString_ws _ _ _ hw]

theorem readPlistArrayStartS_ws : WsInvariant readPlistArrayStartS := by
  intro w input hw
  unfold readPlistArrayStartS
  rw [readSyntaxString_ws _ _ _ hw]

theorem readPlistArrayEndS_ws : WsInvariant readPlistArrayEndS := by
  intro w input hw
  unfold readPlistArrayEndS
  rw [readSyntaxString_ws _ _ _ hw]

theorem readMapBeginS_ws : WsInvariant readMapBeginS := by
  intro w input hw
  unfold readMapBeginS
  rw [readPlistArrayStartS_ws _ _ hw]

theorem readMapEndS_ws (b : Bool) : WsInvariant (readMapEndS b) := by
  intro w input hw
  unfold readMapEndS
  rw [readPlistObjectEndS_ws b _ _ hw]

theorem readStructBeginTopS_ws : WsInvariant readStructBeginTopS := by
  intro w input hw
  unfold readStructBeginTopS
  rw [skipToGt_ws _ hw]

theorem readFieldBeginTok_ws : WsInvariant readFieldBeginTok := by
  intro w input hw
  unfold readFieldBeginTok
  rw [skipWsE_all_ws _ hw]

theorem readMessageBeginTok_ws : WsInvariant readMessageBeginTok := by
  intro w input hw
  unfold readMessageBeginTok
  rw [readPlistArrayStartS_ws _ _ hw]

/-- C4: every operation of the read surface first skips arbitrary runs of
spaces and newlines (or, for the top-level prologue skip, scans to `'>'`
past them), so prepending such a run before any token leaves the decoded
values, field names, remaining stream — and hence the behaviour on whole
documents with whitespace inserted between tokens — and the raised errors
unchanged. -/
theorem c4_whitespace_tolerance :
    WsInvariant readPlistStringTok
    ∧ WsInvariant readPlistBase64Tok
    ∧ WsInvariant readPlistBoolTok
    ∧ WsInvariant readPlistIntegerTok
    ∧ WsInvariant readPlistDoubleTok
    ∧ WsInvariant readFieldBeginTok
    ∧ WsInvariant readStructBeginTopS
    ∧ WsInvariant readStructBeginNestedS
    ∧ (∀ b, WsInvariant (readStructEndS b))
    ∧ WsInvariant readListBeginS
    ∧ WsInvariant readListEndS
    ∧ WsInvariant readMapBeginS
    ∧ (∀ b, WsInvariant (readMapEndS b)) :=
  ⟨readPlistStringTok_ws, readPlistBase64Tok_ws, readPlistBoolTok_ws,
   readPlistIntegerTok_ws, readPlistDoubleTok_ws, readFieldBeginTok_ws,
   readStructBeginTopS_ws, readPlistObjectStartS_ws, readPlistObjectEndS_ws,
   readPlistArrayStartS_ws, readPlistArrayEndS_ws, readMapBeginS_ws,
   readMapEndS_ws⟩

/-- Witness for C4 at a concrete whitespace run and document. -/
theorem c4_whitespace_tolerance_witness :
    readPlistStringTok ((' ' :: '\n' :: ' ' :: [])
        ++ "<string>hi</string>".toList)
      = readPlistStringTok "<string>hi</string>".toList :=
  c4_whitespace_tolerance.1 (' ' :: '\n' :: ' ' :: [])
    "<string>hi</string>".toList (by decide)

/-! ## Helper lemmas: key reading and writing -/

theorem readPlistKeyTok_tag (body rest : List Char) (h : '<' ∉ body) :
    readPlistKeyTok (kPlistKeyStart ++ (body ++ (kPlistKeyEnd ++ rest)))
      = .ok (body.map dashToUnderscore, rest) := by
  unfold readPlistKeyTok
  rw [readSyntaxString_self _ _ (by decide) (by decide)]
  have hend : kPlistKeyEnd ++ rest = '<' :: ("/key>".toList ++ rest) := rfl
  show (match readKeyChars (body ++ ('<' :: ("/key>".toList ++ rest))) with
    | Except.error e => Except.error e
    | Except.ok (s, r) =>
      match readSyntaxString kPlistKeyEnd r with
      | Except.error e => Except.error e
      | Except.ok r2 => Except.ok (s, r2))
    = Except.ok (body.map dashToUnderscore, rest)
  rw [readKeyChars_append _ _ h, ← hend]
  show (match readSyntaxString kPlistKeyEnd (kPlistKeyEnd ++ rest) with
    | Except.error e => Except.error e
    | Except.ok r2 => Except.ok (body.map dashToUnderscore, r2))
    = Except.ok (body.map dashToUnderscore, rest)
  rw [readSyntaxString_self _ _ (by decide) (by decide)]

theorem readFieldBeginTok_key (body rest : List Char) (h : '<' ∉ body) :
    readFieldBeginTok (kPlistKeyStart ++ (body ++ (kPlistKeyEnd ++ rest)))
      = .ok (.field (body.map dashToUnderscore) (-1), rest) := by
  have hcons : kPlistKeyStart ++ (body ++ (kPlistKeyEnd ++ rest))
      = '<' :: ("key>".toList ++ (body ++ (kPlistKeyEnd ++ rest))) := rfl
  have hne : ¬ peekN kPlistObjectEnd.length
      ('<' :: ("key>".toList ++ (body ++ (kPlistKeyEnd ++ rest))))
      = kPlistObjectEnd := by
    intro heq
    rw [peekN_cons_of_le _ _ (by
      simp only [List.length_cons, List.length_append]
      have h1 : "key>".toList.length = 4 := rfl
      have h2 : kPlistKeyEnd.length = 6 := rfl
      have h3 : kPlistObjectEnd.length = 7 := rfl
      omega)] at heq
    have heq2 : '<' :: 'k' :: 'e' :: 'y' :: '>' ::
        ((body ++ (kPlistKeyEnd ++ rest)).take 2)
        = '<' :: '/' :: 'd' :: 'i' :: 'c' :: 't' :: '>' :: [] := heq
    injection heq2 with _ h2
    injection h2 with h3 _
    exact absurd h3 (by decide)
  unfold readFieldBeginTok
  rw [hcons, skipWsE, if_neg (by decide)]
  show (if peekN kPlistObjectEnd.length
        ('<' :: ("key>".toList ++ (body ++ (kPlistKeyEnd ++ rest))))
        = kPlistObjectEnd
    then Except.ok (FieldRead.stop,
        '<' :: ("key>".toList ++ (body ++ (kPlistKeyEnd ++ rest))))
    else match readPlistKeyTok
        ('<' :: ("key>".toList ++ (body ++ (kPlistKeyEnd ++ rest)))) with
      | Except.error e => Except.error e
      | Except.ok (name, r) => Except.ok (FieldRead.field name (-1), r))
    = Except.ok (FieldRead.field (List.map dashToUnderscore body) (-1), rest)
  rw [if_neg hne, ← hcons, readPlistKeyTok_tag _ _ h]

theorem writePlistKeyChars_plain (name : List Char)
    (h : ∀ c ∈ name, kEscapeChars.contains c = false) :
    writePlistKeyChars name
      = name.map (fun c => if c = '_' then '-' else c) := by
  induction name with
  | nil => rfl
  | cons c n ih =>
    have hc := h c (by simp)
    have ihn := ih (fun x hx => h x (by simp [hx]))
    by_cases h_ : c = '_'
    · subst h_
      simp [writePlistKeyChars, show writePlistChar '-' = ['-'] from by decide,
        ihn]
    · have hcm : c ∉ kEscapeChars := by simpa using hc
      have hpc : writePlistChar c = [c] := by simp [writePlistChar, hcm]
      simp [writePlistKeyChars, h_, hpc, ihn]

theorem map_dash_underscore (name : List Char) (hd : '-' ∉ name) :
    (name.map (fun c => if c = '_' then '-' else c)).map dashToUnderscore
      = name := by
  induction name with
  | nil => rfl
  | cons c n ih =>
    simp only [List.mem_cons, not_or] at hd
    by_cases h_ : c = '_'
    · subst h_
      simp [dashToUnderscore, ih hd.2]
    · have hcd : ¬ c = '-' := fun h => hd.1 h.symm
      simp [h_, dashToUnderscore, hcd, ih hd.2]

theorem mapped_key_no_lt (name : List Char)
    (h : ∀ c ∈ name, kEscapeChars.contains c = false) :
    '<' ∉ name.map (fun c => if c = '_' then '-' else c) := by
  intro hm
  rw [List.mem_map] at hm
  obtain ⟨c, hc, he⟩ := hm
  by_cases h_ : c = '_'
  · rw [if_pos h_] at he
    exact absurd he (by decide)
  · rw [if_neg h_] at he
    subst he
    exact absurd (h _ hc) (by decide)

/-- C5: `writeFieldBegin` emits the field name inside `<key>…</key>` with
`'_'` replaced by `'-'` (other characters subject only to entity escaping),
and `readFieldBegin` delivers a key with every `'-'` replaced by `'_'`; so
a field name free of `'-'` and of the five reserved entity characters
round-trips through the pair. -/
theorem c5_key_mapping :
    (∀ body rest, '<' ∉ body →
      readPlistKeyTok (kPlistKeyStart ++ (body ++ (kPlistKeyEnd ++ rest)))
        = .ok (body.map dashToUnderscore, rest))
    ∧ (∀ (cs : List PCtx) (ctx : PCtx) (name rest : List Char),
        '-' ∉ name → (∀ c ∈ name, kEscapeChars.contains c = false) →
        readFieldBeginTok ((writeFieldBegin name ⟨cs, ctx, []⟩).out ++ rest)
          = .ok (.field name (-1), rest)) := by
  refine ⟨readPlistKeyTok_tag, fun cs ctx name rest hd hesc => ?_⟩
  unfold writeFieldBegin writePlistKey
  simp only [List.nil_append, List.append_assoc]
  rw [writePlistKeyChars_plain name hesc,
      readFieldBeginTok_ws _ _ (ctxWrite_sep_ws ctx),
      readFieldBeginTok_key _ _ (mapped_key_no_lt name hesc),
      map_dash_underscore name hd]

/-! ## Helper lemmas: whole tokens at the head of a stream -/

theorem readPlistArrayStartS_tag (τ : List Char) :
    readPlistArrayStartS (kPlistArrayStart ++ τ) = .ok τ := by
  unfold readPlistArrayStartS
  exact readSyntaxString_self _ _ (by decide) (by decide)

theorem readPlistStringTok_tag (s : List Char) : ∀ τ : List Char,
    readPlistStringTok
      (kPlistStringStart ++ (escapePlistString s ++ (kPlistStringEnd ++ τ)))
      = .ok (s, τ) := by
  intro τ
  unfold readPlistStringTok
  rw [readSyntaxString_self _ _ (by decide) (by decide)]
  have hend : kPlistStringEnd ++ τ = '<' :: ("/string>".toList ++ τ) := rfl
  show (match readStringChars (escapePlistString s
          ++ ('<' :: ("/string>".toList ++ τ))) with
    | Except.error e => Except.error e
    | Except.ok (s, r) =>
      match readSyntaxString kPlistStringEnd r with
      | Except.error e => Except.error e
      | Except.ok r2 => Except.ok (s, r2)) = Except.ok (s, τ)
  rw [readStringChars_escape, ← hend]
  show (match readSyntaxString kPlistStringEnd (kPlistStringEnd ++ τ) with
    | Except.error e => Except.error e
    | Except.ok r2 => Except.ok (s, r2)) = Except.ok (s, τ)
  rw [readSyntaxString_self _ _ (by decide) (by decide)]

theorem digit_numeric (c : Char) (h : digitChars.contains c = true) :
    isPlistNumeric c = true := by
  have hm : c ∈ digitChars := by simpa using h
  rw [show digitChars
      = ['0', '1', '2', '3', '4', '5', '6', '7', '8', '9'] from rfl] at hm
  simp only [List.mem_cons, List.not_mem_nil, or_false] at hm
  rcases hm with rfl | rfl | rfl | rfl | rfl | rfl | rfl | rfl | rfl | rfl <;>
    decide

theorem readPlistIntegerTok_tag (ds : List Char)
    (h1 : ds.all (fun c => digitChars.contains c) = true) (h2 : ds ≠ []) :
    ∀ τ : List Char,
    readPlistIntegerTok
      (kPlistIntegerStart ++ (ds ++ (kPlistIntegerEnd ++ τ)))
      = .ok (digitsVal ds, τ) := by
  intro τ
  unfold readPlistIntegerTok
  rw [readSyntaxString_self _ _ (by decide) (by decide)]
  have hnum : ∀ c ∈ ds, isPlistNumeric c = true := fun c hc =>
    digit_numeric c (List.all_eq_true.mp h1 c hc)
  have hend : kPlistIntegerEnd ++ τ = '<' :: ("/integer>".toList ++ τ) := rfl
  have hp : parseUInt ds = some (digitsVal ds) := by
    unfold parseUInt
    rw [if_pos ⟨h2, h1⟩]
  show (match readNumericChars (ds ++ ('<' :: ("/integer>".toList ++ τ))) with
    | Except.error e => Except.error e
    | Except.ok (ds, r) =>
      match parseUInt ds with
      | none => Except.error PlistErr.invalidData
      | some v =>
        match readSyntaxString kPlistIntegerEnd r with
        | Except.error e => Except.error e
        | Except.ok r2 => Except.ok (v, r2)) = Except.ok (digitsVal ds, τ)
  rw [readNumericChars_append _ _ hnum, ← hend]
  show (match parseUInt ds with
    | none => Except.error PlistErr.invalidData
    | some v =>
      match readSyntaxString kPlistIntegerEnd (kPlistIntegerEnd ++ τ) with
      | Except.error e => Except.error e
      | Except.ok r2 => Except.ok (v, r2)) = Except.ok (digitsVal ds, τ)
  rw [hp, readSyntaxString_self _ _ (by decide) (by decide)]

/-- C6: `readMessageBegin` reads `<array>` and a first integer; it fails
with BAD_VERSION exactly when that integer is not 1 (whatever follows);
when it is 1, the following string is delivered as the message name and the
next two integers as the message type and sequence id, with no BAD_VERSION
error. -/
theorem c6_message_version (dv s dt dq rest : List Char)
    (hv1 : dv.all (fun c => digitChars.contains c) = true) (hv2 : dv ≠ [])
    (ht1 : dt.all (fun c => digitChars.contains c) = true) (ht2 : dt ≠ [])
    (hq1 : dq.all (fun c => digitChars.contains c) = true) (hq2 : dq ≠ []) :
    (∀ tail, digitsVal dv ≠ 1 →
      readMessageBeginTok (kPlistArrayStart ++ (kPlistIntegerStart
          ++ (dv ++ (kPlistIntegerEnd ++ tail))))
        = .error .badVersion)
    ∧ (digitsVal dv = 1 →
      readMessageBeginTok (kPlistArrayStart ++ (kPlistIntegerStart
          ++ (dv ++ (kPlistIntegerEnd
          ++ (kPlistStringStart ++ (escapePlistString s ++ (kPlistStringEnd
          ++ (kPlistIntegerStart ++ (dt ++ (kPlistIntegerEnd
          ++ (kPlistIntegerStart ++ (dq ++ (kPlistIntegerEnd
          ++ rest)))))))))))))
        = .ok ((s, digitsVal dt, digitsVal dq), rest)) := by
  constructor
  · intro tail hne
    simp only [readMessageBeginTok, readPlistArrayStartS_tag,
      readPlistIntegerTok_tag dv hv1 hv2]
    have hne' : digitsVal dv ≠ kThriftVersion1 := hne
    rw [if_pos hne']
  · intro h1
    simp only [readMessageBeginTok, readPlistArrayStartS_tag,
      readPlistIntegerTok_tag dv hv1 hv2, readPlistStringTok_tag,
      readPlistIntegerTok_tag dt ht1 ht2, readPlistIntegerTok_tag dq hq1 hq2]
    have h1' : ¬ digitsVal dv ≠ kThriftVersion1 := fun hh => hh h1
    rw [if_neg h1']

/-- C7: `readFieldBegin` first skips spaces and newlines; if the next bytes
(peeked, the length of `</dict>`) are `</dict>` it reports the terminal
field sentinel (`fieldType = T_STOP`) without consuming them; otherwise it
reads a `<key>…</key>` token, returns its content with `'-'` mapped to
`'_'` as the field name, leaves the field type unspecified (`T_VOID`) and
sets the field id to -1. -/
theorem c7_field_sentinel (w rest : List Char) (hw : w.all isWs = true) :
    (readFieldBeginTok (w ++ (kPlistObjectEnd ++ rest))
        = .ok (.stop, kPlistObjectEnd ++ rest))
    ∧ FieldRead.stop.ftype = TType.T_STOP
    ∧ (∀ body, '<' ∉ body →
        readFieldBeginTok
            (w ++ (kPlistKeyStart ++ (body ++ (kPlistKeyEnd ++ rest))))
          = .ok (.field (body.map dashToUnderscore) (-1), rest))
    ∧ (∀ name fid, (FieldRead.field name fid).ftype = TType.T_VOID) := by
  refine ⟨?_, rfl, fun body hb => ?_, fun name fid => rfl⟩
  · rw [readFieldBeginTok_ws _ _ hw]
    have hcons : kPlistObjectEnd ++ rest
        = '<' :: ("/dict>".toList ++ rest) := rfl
    have hpeek : peekN kPlistObjectEnd.length
        ('<' :: ("/dict>".toList ++ rest)) = kPlistObjectEnd := by
      rw [peekN_cons_of_le _ _ (by
        simp only [List.length_cons, List.length_append]
        have h1 : "/dict>".toList.length = 6 := rfl
        have h2 : kPlistObjectEnd.length = 7 := rfl
        omega)]
      rfl
    unfold readFieldBeginTok
    rw [hcons, skipWsE, if_neg (by decide)]
    show (if peekN kPlistObjectEnd.length
          ('<' :: ("/dict>".toList ++ rest)) = kPlistObjectEnd
      then Except.ok (FieldRead.stop, '<' :: ("/dict>".toList ++ rest))
      else match readPlistKeyTok ('<' :: ("/dict>".toList ++ rest)) with
        | Except.error e => Except.error e
        | Except.ok (name, r) => Except.ok (FieldRead.field name (-1), r))
      = Except.ok (FieldRead.stop, kPlistObjectEnd ++ rest)
    rw [if_pos hpeek, ← hcons]
  · rw [readFieldBeginTok_ws _ _ hw, readFieldBeginTok_key _ _ hb]

/-- Witness for C7 at a concrete whitespace run, key body and tail. -/
theorem c7_field_sentinel_witness :
    ((' ' :: []).all isWs = true)
    ∧ (readFieldBeginTok ((' ' :: []) ++ (kPlistObjectEnd ++ []))
        = .ok (.stop, kPlistObjectEnd ++ []))
    ∧ (readFieldBeginTok ((' ' :: [])
          ++ (kPlistKeyStart ++ (('a' :: '-' :: 'b' :: [])
              ++ (kPlistKeyEnd ++ []))))
        = .ok (.field (('a' :: '-' :: 'b' :: []).map dashToUnderscore)
               (-1), [])) :=
  ⟨by decide,
   (c7_field_sentinel (' ' :: []) [] (by decide)).1,
   (c7_field_sentinel (' ' :: []) [] (by decide)).2.2.1
     ('a' :: '-' :: 'b' :: []) (by decide)⟩

/-! ## Helper lemmas: context-stack effects of the writer operations -/

theorem writePlistObjectStart_contexts (st : WState) :
    (writePlistObjectStart st).contexts
      = (ctxWrite st.context).1 :: st.contexts := rfl

theorem writePlistArrayStart_contexts (st : WState) :
    (writePlistArrayStart st).contexts
      = (ctxWrite st.context).1 :: st.contexts := rfl

theorem writePlistObjectEnd_contexts (st : WState) :
    (writePlistObjectEnd st).contexts = st.contexts.tail := rfl

theorem writePlistArrayEnd_contexts (st : WState) :
    (writePlistArrayEnd st).contexts = st.contexts.tail := rfl

theorem writePlistInteger_contexts (n : Int) (st : WState) :
    (writePlistInteger n st).contexts = st.contexts := rfl

theorem writePlistString_contexts (s : List Char) (st : WState) :
    (writePlistString s st).contexts = st.contexts := rfl

theorem writeStructBegin_contexts (st : WState) :
    (writeStructBegin st).contexts.length = st.contexts.length + 1 := by
  by_cases h : st.contexts = [] <;>
    simp [writeStructBegin, h, writePlistObjectStart_contexts]

/-- C8 counterexample: at a concrete initial state, `writeMapBegin` pushes
two contexts (the List context of `<array>` and the Pair context of
`<dict>`), not exactly one. -/
theorem c8_counterexample :
    ¬ ((writeMapBegin ⟨[], .base, []⟩).contexts.length
        = (⟨[], .base, []⟩ : WState).contexts.length + 1) := by
  decide

/-- C8 amended: every façade Begin/End pair balances its pushes and pops,
so the stack depth after a completed pair equals the depth before it; the
struct, list, set and message pairs push exactly one context, the field
pair pushes none, and the map pair (write and read alike) pushes exactly
two. -/
theorem c8_amended_stack_discipline :
    (∀ st : WState,
      (writeStructBegin st).contexts.length = st.contexts.length + 1
      ∧ (writeStructEnd (writeStructBegin st)).contexts.length
          = st.contexts.length)
    ∧ (∀ st : WState,
      (writeListBegin st).contexts.length = st.contexts.length + 1
      ∧ (writeListEnd (writeListBegin st)).contexts.length
          = st.contexts.length)
    ∧ (∀ st : WState,
      (writeSetBegin st).contexts.length = st.contexts.length + 1
      ∧ (writeSetEnd (writeSetBegin st)).contexts.length
          = st.contexts.length)
    ∧ (∀ (name : List Char) (mt sq : Int) (st : WState),
      (writeMessageBegin name mt sq st).contexts.length
          = st.contexts.length + 1
      ∧ (writeMessageEnd (writeMessageBegin name mt sq st)).contexts.length
          = st.contexts.length)
    ∧ (∀ (name : List Char) (st : WState),
      (writeFieldBegin name st).contexts.length = st.contexts.length
      ∧ (writeFieldEnd (writeFieldBegin name st)).contexts.length
          = st.contexts.length)
    ∧ (∀ st : WState,
      (writeMapBegin st).contexts.length = st.contexts.length + 2
      ∧ (writeMapEnd (writeMapBegin st)).contexts.length
          = st.contexts.length)
    ∧ (∀ (c : PCtx) (cs : List PCtx) (mid : List Char),
      readMapBeginR ⟨kPlistArrayStart ++ (kPlistObjectStart ++ mid), c, cs⟩
        = .ok ⟨mid, .pair true true, .list false :: ctxRead c :: cs⟩)
    ∧ (∀ (c d1 d2 : PCtx) (cs : List PCtx) (rest : List Char),
      readMapEndR ⟨kPlistObjectEnd ++ (kPlistArrayEnd ++ rest), c,
          d2 :: d1 :: cs⟩
        = .ok ⟨rest, d1, cs⟩) := by
  refine ⟨?_, ?_, ?_, ?_, ?_, ?_, ?_, ?_⟩
  · intro st
    refine ⟨writeStructBegin_contexts st, ?_⟩
    rw [show writeStructEnd (writeStructBegin st)
        = writePlistObjectEnd (writeStructBegin st) from rfl,
      writePlistObjectEnd_contexts, List.length_tail,
      writeStructBegin_contexts]
    omega
  · intro st
    constructor
    · simp [writeListBegin, writePlistArrayStart_contexts]
    · simp [writeListBegin, writeListEnd, writePlistArrayEnd_contexts,
        writePlistArrayStart_contexts]
  · intro st
    constructor
    · simp [writeSetBegin, writePlistArrayStart_contexts]
    · simp [writeSetBegin, writeSetEnd, writePlistArrayEnd_contexts,
        writePlistArrayStart_contexts]
  · intro name mt sq st
    constructor
    · simp [writeMessageBegin, writePlistInteger_contexts,
        writePlistString_contexts, writePlistArrayStart_contexts]
    · simp [writeMessageBegin, writeMessageEnd, writePlistInteger_contexts,
        writePlistString_contexts, writePlistArrayEnd_contexts,
        writePlistArrayStart_contexts]
  · intro name st
    exact ⟨rfl, rfl⟩
  · intro st
    constructor
    · simp [writeMapBegin, writePlistObjectStart_contexts,
        writePlistArrayStart_contexts]
    · simp [writeMapBegin, writeMapEnd, writePlistArrayEnd_contexts,
        writePlistObjectEnd_contexts, writePlistObjectStart_contexts,
        writePlistArrayStart_contexts]
  · intro c cs mid
    have e1 := readSyntaxString_self kPlistArrayStart
      (kPlistObjectStart ++ mid) (by decide) (by decide)
    have e2 := readSyntaxString_self kPlistObjectStart mid
      (by decide) (by decide)
    simp [readMapBeginR, readPlistArrayStartR, readPlistObjectStartR,
      e1, e2, ctxRead]
  · intro c d1 d2 cs rest
    have e1 := readSyntaxString_self kPlistObjectEnd
      (kPlistArrayEnd ++ rest) (by decide) (by decide)
    have e2 := readSyntaxString_self kPlistArrayEnd rest
      (by decide) (by decide)
    simp [readMapEndR, readPlistObjectEndR, readPlistArrayEndR, e1, e2]

/-! ## Helper lemmas: LookaheadReader -/

/-- The first component `read()` delivers is the head of the stream,
independent of the buffer/source split. -/
theorem LookaheadReader.read_map_fst (r : LookaheadReader) :
    Except.map Prod.fst r.read
      = match r.stream with
        | [] => Except.error PlistErr.eofErr
        | c :: _ => Except.ok c := by
  rcases r with ⟨b, s⟩
  cases b <;> cases s <;>
    simp [LookaheadReader.read, LookaheadReader.stream, Except.map]

/-- `consume(k)` drops exactly `k` bytes of the stream, independent of the
buffer/source split. -/
theorem LookaheadReader.consume_stream (r : LookaheadReader) (k : Nat) :
    Except.map LookaheadReader.stream (LookaheadReader.consume k r)
      = if k ≤ r.stream.length then .ok (r.stream.drop k)
        else .error .eofErr := by
  rcases r with ⟨b, s⟩
  simp only [LookaheadReader.consume, LookaheadReader.stream,
    List.length_append]
  by_cases h1 : k ≤ b.length
  · rw [if_pos h1, if_pos (by omega)]
    simp [Except.map, LookaheadReader.stream,
      List.drop_append_eq_append_drop, Nat.sub_eq_zero_of_le h1]
  · rw [if_neg h1]
    by_cases h2 : k - b.length ≤ s.length
    · rw [if_pos h2, if_pos (by omega)]
      simp [Except.map, LookaheadReader.stream,
        List.drop_append_eq_append_drop,
        List.drop_eq_nil_of_le (le_of_not_le h1)]
    · rw [if_neg h2, if_neg (by omega)]
      rfl

/-- C9: `peek(n)` returns exactly the next `n` bytes of the stream without
consuming them, extending the buffer to length at least `n` by reading the
shortfall from the source, and returns the empty string (leaving the reader
unchanged) when the source cannot supply `n` bytes; a subsequent `read()`
or `consume()` still observes the same bytes. -/
theorem c9_lookahead_peek (r : LookaheadReader) (n k : Nat) :
    (n ≤ r.stream.length →
      (LookaheadReader.peekSize n r).1 = r.stream.take n
      ∧ n ≤ (LookaheadReader.peekSize n r).2.buffer.length
      ∧ (LookaheadReader.peekSize n r).2.stream = r.stream
      ∧ Except.map Prod.fst ((LookaheadReader.peekSize n r).2.read)
          = Except.map Prod.fst r.read
      ∧ Except.map LookaheadReader.stream
          (LookaheadReader.consume k ((LookaheadReader.peekSize n r).2))
          = Except.map LookaheadReader.stream (LookaheadReader.consume k r))
    ∧ (r.stream.length < n →
      (LookaheadReader.peekSize n r).1 = []
      ∧ (LookaheadReader.peekSize n r).2 = r) := by
  constructor
  · intro hn
    have hstream : (LookaheadReader.peekSize n r).2.stream = r.stream := by
      rcases r with ⟨b, s⟩
      simp only [LookaheadReader.stream, List.length_append] at hn
      simp only [LookaheadReader.peekSize]
      by_cases h1 : n ≤ b.length
      · rw [if_pos h1]
      · rw [if_neg h1, if_pos (by omega)]
        simp [LookaheadReader.stream, List.append_assoc,
          List.take_append_drop]
    refine ⟨?_, ?_, hstream, ?_, ?_⟩
    · rcases r with ⟨b, s⟩
      simp only [LookaheadReader.stream, List.length_append] at hn
      simp only [LookaheadReader.peekSize, LookaheadReader.stream]
      by_cases h1 : n ≤ b.length
      · rw [if_pos h1]
        rw [List.take_append_eq_append_take, Nat.sub_eq_zero_of_le h1]
        simp
      · rw [if_neg h1, if_pos (by omega)]
        rw [List.take_append_eq_append_take,
          List.take_of_length_le (show b.length ≤ n by omega)]
    · rcases r with ⟨b, s⟩
      simp only [LookaheadReader.stream, List.length_append] at hn
      simp only [LookaheadReader.peekSize]
      by_cases h1 : n ≤ b.length
      · rw [if_pos h1]
        exact h1
      · rw [if_neg h1, if_pos (by omega)]
        simp only [List.length_append, List.length_take]
        omega
    · rw [LookaheadReader.read_map_fst, LookaheadReader.read_map_fst,
        hstream]
    · rw [LookaheadReader.consume_stream, LookaheadReader.consume_stream,
        hstream]
  · intro hn
    rcases r with ⟨b, s⟩
    simp only [LookaheadReader.stream, List.length_append] at hn
    simp only [LookaheadReader.peekSize]
    rw [if_neg (by omega), if_neg (by omega)]
    exact ⟨rfl, rfl⟩

/-- Witness for C9 at a concrete reader, `n = 2`, `k = 1`. -/
theorem c9_lookahead_peek_witness :
    (2 ≤ (⟨'a' :: [], 'b' :: 'c' :: []⟩ : LookaheadReader).stream.length)
    ∧ ((LookaheadReader.peekSize 2 ⟨'a' :: [], 'b' :: 'c' :: []⟩).1
        = (⟨'a' :: [], 'b' :: 'c' :: []⟩ : LookaheadReader).stream.take 2
      ∧ 2 ≤ (LookaheadReader.peekSize 2
          ⟨'a' :: [], 'b' :: 'c' :: []⟩).2.buffer.length
      ∧ (LookaheadReader.peekSize 2 ⟨'a' :: [], 'b' :: 'c' :: []⟩).2.stream
        = (⟨'a' :: [], 'b' :: 'c' :: []⟩ : LookaheadReader).stream
      ∧ Except.map Prod.fst
          ((LookaheadReader.peekSize 2 ⟨'a' :: [], 'b' :: 'c' :: []⟩).2.read)
        = Except.map Prod.fst
          (⟨'a' :: [], 'b' :: 'c' :: []⟩ : LookaheadReader).read
      ∧ Except.map LookaheadReader.stream
          (LookaheadReader.consume 1
            ((LookaheadReader.peekSize 2 ⟨'a' :: [], 'b' :: 'c' :: []⟩).2))
        = Except.map LookaheadReader.stream
          (LookaheadReader.consume 1 ⟨'a' :: [], 'b' :: 'c' :: []⟩)) :=
  ⟨by decide,
   (c9_lookahead_peek ⟨'a' :: [], 'b' :: 'c' :: []⟩ 2 1).1 (by decide)⟩

/-- In the `readPlistString` loop, a body whose every `'&'` fails the
entity dispatch is delivered with exactly those `'&'` bytes deleted. -/
theorem readStringChars_lonely (body τ : List Char) (h1 : '<' ∉ body)
    (h2 : lonelyAmps ('<' :: τ) body = true) :
    readStringChars (body ++ '<' :: τ)
      = .ok (body.filter (fun c => !(c == '&')), '<' :: τ) := by
  induction body with
  | nil => simp [readStringChars]
  | cons c b ih =>
    simp only [List.mem_cons, not_or] at h1
    have hlt : ¬ c = '<' := fun h => h1.1 h.symm
    simp only [lonelyAmps, Bool.and_eq_true] at h2
    by_cases hamp : c = '&'
    · subst hamp
      have hstep : entityStep ('&' :: (b ++ '<' :: τ)) = ([], 1) := by
        have := h2.1
        rw [if_pos rfl] at this
        exact of_decide_eq_true this
      simp only [List.cons_append]
      rw [readStringChars, if_neg hlt, if_pos rfl, hstep]
      simp [ih h1.2 h2.2]
    · have h2' : lonelyAmps ('<' :: τ) b = true := h2.2
      simp only [List.cons_append]
      rw [readStringChars, if_neg hlt, if_neg hamp, ih h1.2 h2']
      simp [List.filter_cons, hamp]

/-- C10: inside a `<string>` token, a `'&'` that does not begin one of the
five recognized entities is consumed and contributes nothing, so
`readString` returns the body with each such `'&'` deleted, and no error is
raised. -/
theorem c10_lone_ampersand (body rest : List Char) (h1 : '<' ∉ body)
    (h2 : lonelyAmps (kPlistStringEnd ++ rest) body = true) :
    readPlistStringTok
        (kPlistStringStart ++ (body ++ (kPlistStringEnd ++ rest)))
      = .ok (body.filter (fun c => !(c == '&')), rest) := by
  unfold readPlistStringTok
  rw [readSyntaxString_self _ _ (by decide) (by decide)]
  have hend : kPlistStringEnd ++ rest = '<' :: ("/string>".toList ++ rest) :=
    rfl
  have h2' : lonelyAmps ('<' :: ("/string>".toList ++ rest)) body = true := h2
  show (match readStringChars (body
          ++ ('<' :: ("/string>".toList ++ rest))) with
    | Except.error e => Except.error e
    | Except.ok (s, r) =>
      match readSyntaxString kPlistStringEnd r with
      | Except.error e => Except.error e
      | Except.ok r2 => Except.ok (s, r2))
    = Except.ok (body.filter (fun c => !(c == '&')), rest)
  rw [readStringChars_lonely _ _ h1 h2', ← hend]
  show (match readSyntaxString kPlistStringEnd (kPlistStringEnd ++ rest) with
    | Except.error e => Except.error e
    | Except.ok r2 =>
      Except.ok (body.filter (fun c => !(c == '&')), r2))
    = Except.ok (body.filter (fun c => !(c == '&')), rest)
  rw [readSyntaxString_self _ _ (by decide) (by decide)]

/-- Witness for C10 at the concrete body `a&b`. -/
theorem c10_lone_ampersand_witness :
    ('<' ∉ ('a' :: '&' :: 'b' :: []))
    ∧ (lonelyAmps (kPlistStringEnd ++ []) ('a' :: '&' :: 'b' :: []) = true)
    ∧ (readPlistStringTok (kPlistStringStart ++ (('a' :: '&' :: 'b' :: [])
          ++ (kPlistStringEnd ++ [])))
        = .ok (('a' :: '&' :: 'b' :: []).filter (fun c => !(c == '&')), [])) :=
  ⟨by decide, by decide,
   c10_lone_ampersand ('a' :: '&' :: 'b' :: []) [] (by decide) (by decide)⟩

/-- Witness for C2 at the concrete bytes `[104, 105]`. -/
theorem c2_binary_round_trip_witness :
    (∀ b ∈ (104 :: 105 :: [] : List Nat), b < 256)
    ∧ readPlistBase64Tok
        ((writePlistBase64 (104 :: 105 :: []) ⟨[], .base, []⟩).out ++ [])
      = .ok ((104 :: 105 :: []), []) :=
  ⟨by decide,
   c2_binary_round_trip [] .base (104 :: 105 :: []) [] (by decide)⟩

/-- Witness for C3 at the initial writer state (empty stack). -/
theorem c3_plist_framing_witness :
    ((⟨[], .base, []⟩ : WState).contexts = [])
    ∧ ((writeStructBegin ⟨[], .base, []⟩).out
        = ([] : List Char) ++ (ctxWrite .base).2 ++ kPlistHeader
          ++ kPlistPlistStart ++ (ctxWrite (ctxWrite .base).1).2
          ++ kPlistObjectStart
      ∧ (writeStructBegin ⟨[], .base, []⟩).contexts.length = 1) :=
  ⟨rfl, (c3_plist_framing ⟨[], .base, []⟩).1 rfl⟩

/-- Witness for C5 at the concrete field name `a_b`. -/
theorem c5_key_mapping_witness :
    ('-' ∉ ('a' :: '_' :: 'b' :: []))
    ∧ (∀ c ∈ ('a' :: '_' :: 'b' :: []), kEscapeChars.contains c = false)
    ∧ readFieldBeginTok
        ((writeFieldBegin ('a' :: '_' :: 'b' :: []) ⟨[], .base, []⟩).out
          ++ [])
      = .ok (.field ('a' :: '_' :: 'b' :: []) (-1), []) :=
  ⟨by decide, by decide,
   c5_key_mapping.2 [] .base ('a' :: '_' :: 'b' :: []) [] (by decide)
     (by decide)⟩

/-- Witness for C6 at a concrete version-1 message. -/
theorem c6_message_version_witness :
    (('1' :: []).all (fun c => digitChars.contains c) = true)
    ∧ (digitsVal ('1' :: []) = 1)
    ∧ readMessageBeginTok (kPlistArrayStart ++ (kPlistIntegerStart
        ++ (('1' :: []) ++ (kPlistIntegerEnd
        ++ (kPlistStringStart ++ (escapePlistString ('m' :: [])
        ++ (kPlistStringEnd
        ++ (kPlistIntegerStart ++ (('2' :: []) ++ (kPlistIntegerEnd
        ++ (kPlistIntegerStart ++ (('3' :: []) ++ (kPlistIntegerEnd
        ++ ([] : List Char))))))))))))))
      = .ok ((('m' :: []), digitsVal ('2' :: []), digitsVal ('3' :: [])),
             []) :=
  ⟨by decide, by decide,
   (c6_message_version ('1' :: []) ('m' :: []) ('2' :: []) ('3' :: []) []
     (by decide) (by decide) (by decide) (by decide) (by decide)
     (by decide)).2 (by decide)⟩
